import Mathlib

/-
Verification of the mirror synchronizer in file_handler.py (class FileHandler).

Modelling conventions:
  - an absolute filesystem path is a list of name components (the root is the
    empty list); the watched roots watch_dir and archive_dir are such lists;
  - Python string operations on file names (str.endswith, os.path.splitext,
    unicodedata.normalize) act on code-point sequences; endswith and splitext
    are embedded below, while NFC normalization is kept as an explicit function
    parameter nfc, since the handler treats it as an external capability;
  - os.path.relpath, os.path.join, os.path.dirname and os.path.basename are
    embedded on component lists; join never normalizes, so a computed path can
    carry dot-dot components, and the operating system resolves those only when
    a system call receives the path (normP below);
  - the filesystem is a snapshot assigning text content to file paths and an
    existence flag to directory paths; every modelled system call addresses it
    through the resolved (normP) path;
  - datetime.now().strftime with format %Y-%m-%d %H:%M is embedded as a pure
    function of a minute-precision clock reading;
  - console output is returned as the list of printed lines, in order.
-/

/-- Model of the Python method str.endswith: suffix test on code points. -/
def pyEndsWith (s suffix : String) : Bool :=
  suffix.data.isSuffixOf s.data

/-- Model of os.path.splitext restricted to a bare file name (no separators):
split at the last dot, except when every character in front of that dot is
itself a dot (so a leading-dot name such as .bashrc keeps its dot). -/
def pySplitExt (s : String) : String × String :=
  match s.data.reverse.findIdx? (fun c => c == '.') with
  | none => (s, "")
  | some i =>
    let k := s.data.length - 1 - i
    if (s.data.take k).any (fun c => c != '.') then
      (⟨s.data.take k⟩, ⟨s.data.drop k⟩)
    else (s, "")

/-- Length of the longest common front shared by two component lists, as used
inside os.path.relpath. -/
def commonLen : List String → List String → Nat
  | a :: as, b :: bs => if a = b then commonLen as bs + 1 else 0
  | _, _ => 0

/-- Model of os.path.relpath on component lists: climb out of the unshared part
of the start directory with dot-dot components, then descend into the unshared
part of the target path. -/
def relpath (p start : List String) : List String :=
  List.replicate (start.length - commonLen p start) ".." ++ p.drop (commonLen p start)

/-- Model of os.path.dirname on a component list. -/
def dirname (p : List String) : List String := p.dropLast

/-- Model of os.path.basename on a component list. -/
def basename (p : List String) : String := p.getLastD ""

/-- One step of the resolution the operating system applies to dot and dot-dot
components when a path reaches a system call; on an absolute path a dot-dot at
the root stays at the root. -/
def resolveStep (acc : List String) (c : String) : List String :=
  if c = ".." then acc.dropLast else if c = "." then acc else acc ++ [c]

/-- Resolved form of a path: fold the resolution step over its components. -/
def normP (p : List String) : List String := p.foldl resolveStep []

/-- A snapshot of the local filesystem: regular files carrying text content and
a set of existing directories. -/
structure FS where
  files : List String → Option String
  dirs : List String → Bool

/-- Model of os.path.exists: a file or a directory is present at the resolved
path. -/
def FS.pexists (fs : FS) (p : List String) : Bool :=
  (fs.files (normP p)).isSome || fs.dirs (normP p)

/-- Model of opening a path in write mode and writing text c: the file at the
resolved path is created or overwritten with exactly c. -/
def FS.write (fs : FS) (p : List String) (c : String) : FS :=
  { fs with files := fun q => if q = normP p then some c else fs.files q }

/-- Model of os.remove: the file at the resolved path disappears. -/
def FS.remove (fs : FS) (p : List String) : FS :=
  { fs with files := fun q => if q = normP p then none else fs.files q }

/-- Model of os.makedirs with exist_ok set: the resolved path and every
ancestor of it exist as directories afterwards. -/
def FS.makedirs (fs : FS) (p : List String) : FS :=
  { fs with dirs := fun q => if q.isPrefixOf (normP p) then true else fs.dirs q }

/-- Model of shutil.rmtree: every file and directory at or below the resolved
path disappears. -/
def FS.rmtree (fs : FS) (p : List String) : FS :=
  { files := fun q => if (normP p).isPrefixOf q then none else fs.files q,
    dirs := fun q => if (normP p).isPrefixOf q then false else fs.dirs q }

/-- Model of shutil.move on a regular file: the destination receives the source
content and the source entry disappears. -/
def FS.move (fs : FS) (src dst : List String) : FS :=
  match fs.files (normP src) with
  | some c =>
    { fs with files := fun q =>
        if q = normP dst then some c
        else if q = normP src then none
        else fs.files q }
  | none => fs

/-- A clock reading at minute precision: the part of datetime.now() the handler
consumes. The fields are the calendar values delivered by the system clock. -/
structure DateTime where
  year : Nat
  month : Nat
  day : Nat
  hour : Nat
  minute : Nat

/-- Decimal digit character for the last decimal digit of n. -/
def digitChar (n : Nat) : Char := Char.ofNat (48 + n % 10)

/-- Two-digit zero-padded decimal field, as strftime prints month, day, hour
and minute values. -/
def pad2 (n : Nat) : String := ⟨[digitChar (n / 10), digitChar n]⟩

/-- Four-digit zero-padded decimal field, as strftime prints common-era year
values. -/
def pad4 (n : Nat) : String :=
  ⟨[digitChar (n / 1000), digitChar (n / 100), digitChar (n / 10), digitChar n]⟩

/-- Model of datetime.strftime with format string %Y-%m-%d %H:%M. -/
def strftimeYmdHM (t : DateTime) : String :=
  pad4 t.year ++ "-" ++ pad2 t.month ++ "-" ++ pad2 t.day ++ " "
    ++ pad2 t.hour ++ ":" ++ pad2 t.minute

/-- The separator line of 25 equals signs printed after each console notice. -/
def border : String := "========================="

/-- The 24 space characters the program writes on the line between the Link
field and the Last updated field of a sidecar record. -/
def spaces24 : String := "                        "

/-- The exact text on_created writes into a sidecar file for display name b at
time t, transcribed from the f-string in the source. -/
def sidecarText (b : String) (t : DateTime) : String :=
  "File name: " ++ b ++ "\n\nLink: \n" ++ spaces24 ++ "\nLast updated: "
    ++ strftimeYmdHM t ++ "\n\nOther:\n"

/-- The state of a FileHandler instance: the two watched roots and the set of
sidecar paths the handler has itself written. -/
structure Handler where
  watch_dir : List String
  archive_dir : List String
  system_created_txt_files : List (List String)

/-- A creation or deletion notification: the affected absolute path and the
directory flag. -/
structure Event where
  src_path : List String
  is_directory : Bool

/-- A move notification: old and new absolute paths and the directory flag. -/
structure MovedEvent where
  src_path : List String
  dest_path : List String
  is_directory : Bool

/-- The observable outcome of one handler invocation: the updated handler
state, the updated filesystem, and the console lines printed, in order. -/
structure HResult where
  handler : Handler
  fs : FS
  console : List String

/-- Embedding of FileHandler.on_created. The parameter nfc models the function
unicodedata.normalize applied with form NFC, and now models datetime.now(). -/
def on_created (nfc : String → String) (now : DateTime) (h : Handler) (fs : FS)
    (event : Event) : HResult :=
  if event.is_directory then ⟨h, fs, []⟩
  else
    let relative_path := relpath event.src_path h.watch_dir
    let base_name := nfc (basename event.src_path)
    let name_without_ext := nfc (pySplitExt base_name).1
    let txt_path := h.archive_dir ++ dirname relative_path ++ [name_without_ext ++ ".txt"]
    let fs1 := fs.makedirs (dirname txt_path)
    if event.src_path = txt_path then ⟨h, fs1, []⟩
    else if pyEndsWith base_name ".txt" then
      if h.system_created_txt_files.contains event.src_path then ⟨h, fs1, []⟩
      else ⟨h, fs1, ["Ignored .txt file: " ++ base_name, border]⟩
    else
      let fs2 := fs1.write txt_path (sidecarText base_name now)
      ⟨{ h with system_created_txt_files := txt_path :: h.system_created_txt_files },
        fs2,
        ["File added: " ++ base_name, "Corresponding source file also created.", border]⟩

/-- Embedding of FileHandler.on_moved. -/
def on_moved (nfc : String → String) (h : Handler) (fs : FS)
    (event : MovedEvent) : HResult :=
  if event.is_directory then ⟨h, fs, []⟩
  else
    let old_relative_path := relpath event.src_path h.watch_dir
    let new_relative_path := relpath event.dest_path h.watch_dir
    let old_name_without_ext := nfc (pySplitExt (basename old_relative_path)).1
    let new_name_without_ext := nfc (pySplitExt (basename new_relative_path)).1
    let old_txt_path :=
      h.archive_dir ++ dirname old_relative_path ++ [old_name_without_ext ++ ".txt"]
    let new_txt_path :=
      h.archive_dir ++ dirname new_relative_path ++ [new_name_without_ext ++ ".txt"]
    if fs.pexists old_txt_path then
      ⟨h, (fs.makedirs (dirname new_txt_path)).move old_txt_path new_txt_path, []⟩
    else ⟨h, fs, []⟩

/-- The fixed ordered list of recognized media extensions probed by the reverse
deletion path of on_deleted. -/
def possible_extensions : List String :=
  [".mp4", ".avi", ".mkv", ".mov", ".webm", ".gif", ".jpeg", ".jpg", ".png",
   ".webp", ".mp3", ".aac", ".wav", ".flac", ".bmp"]

/-- Embedding of the probe loop at the end of on_deleted: try each extension in
list order against the watch-side candidate path, delete the first match and
stop; report the filesystem and the lines printed. -/
def probeDelete (fs : FS) (watch_dir rel_dir : List String)
    (name_without_ext base_name : String) :
    List String → FS × List String
  | [] => (fs, [])
  | ext :: rest =>
    let watch_file_path := watch_dir ++ rel_dir ++ [name_without_ext ++ ext]
    if fs.pexists watch_file_path then
      (fs.remove watch_file_path,
        ["File deleted: " ++ base_name,
         "Watch file also deleted: " ++ name_without_ext ++ ext, border])
    else probeDelete fs watch_dir rel_dir name_without_ext base_name rest

/-- Embedding of FileHandler.on_deleted. The directory notice renders the
relative path with the separator of the host filesystem. -/
def on_deleted (nfc : String → String) (h : Handler) (fs : FS)
    (event : Event) : HResult :=
  if event.is_directory then
    let relative_dir_path := relpath event.src_path h.watch_dir
    let archive_dir_path := h.archive_dir ++ relative_dir_path
    if fs.pexists archive_dir_path then
      ⟨h, fs.rmtree archive_dir_path,
        ["Directory deleted: " ++ String.intercalate "/" relative_dir_path,
         "Corresponding source files also deleted.", border]⟩
    else ⟨h, fs, []⟩
  else
    let relative_path := relpath event.src_path h.watch_dir
    let base_name := nfc (basename relative_path)
    let name_without_ext := nfc (pySplitExt base_name).1
    let txt_path :=
      h.archive_dir ++ dirname relative_path ++ [name_without_ext ++ ".txt"]
    let step1 : FS × List String :=
      if fs.pexists txt_path then
        (fs.remove txt_path,
          ["File deleted: " ++ base_name,
           "Corresponding source file also deleted.", border])
      else (fs, [])
    if pyEndsWith base_name ".txt" then
      let step2 := probeDelete step1.1 h.watch_dir (dirname relative_path)
        (pySplitExt base_name).1 base_name possible_extensions
      ⟨h, step2.1, step1.2 ++ step2.2⟩
    else ⟨h, step1.1, step1.2⟩
/-- The record shape displayed in the specification for the sidecar file
format, with an empty line between each pair of consecutive fields; this
definition transcribes the words of the spec, not the code, for comparison
with the text the code writes. -/
def specSidecarText (b ts : String) : String :=
  "File name: " ++ b ++ "\n\nLink: \n\nLast updated: " ++ ts ++ "\n\nOther:\n"
/-- Recognizer for a timestamp of shape YYYY-MM-DD HH:MM: sixteen characters
with digits in the calendar positions and the three separators in place. -/
def isTimestampYmdHM (s : String) : Bool :=
  match s.data with
  | [y1, y2, y3, y4, '-', m1, m2, '-', d1, d2, ' ', h1, h2, ':', n1, n2] =>
    y1.isDigit && y2.isDigit && y3.isDigit && y4.isDigit && m1.isDigit && m2.isDigit
      && d1.isDigit && d2.isDigit && h1.isDigit && h2.isDigit && n1.isDigit && n2.isDigit
  | _ => false
/-- Handler for the concrete reverse-deletion scenario: sibling roots w and a. -/
def hRev : Handler := ⟨["w"], ["a"], []⟩
/-- Filesystem for the reverse-deletion scenario: the source file w/video.mp4
is present, the sidecar a/video.txt has just been deleted. -/
def fsRev : FS :=
  { files := fun q => if q = ["w", "video.mp4"] then some "vid" else none,
    dirs := fun q => q == [] || q == ["w"] || q == ["a"] }
/-- Variant filesystem in which a stray media file also sits in the archive
tree next to the deleted sidecar. -/
def fsRevStray : FS :=
  { files := fun q =>
      if q = ["w", "video.mp4"] then some "vid"
      else if q = ["a", "video.mp4"] then some "stray" else none,
    dirs := fun q => q == [] || q == ["w"] || q == ["a"] }
/-- Deletion notification for the sidecar a/video.txt. -/
def evRev : Event := ⟨["a", "video.txt"], false⟩
/-- The sidecar path on_moved computes for one endpoint of a move: archive
root, then the directory part of the relative path under the watch root, then
the extension-free base name of that relative path, normalized after the
split, with the sidecar extension appended. -/
def moved_txt_path (nfc : String → String) (h : Handler) (p : List String) :
    List String :=
  h.archive_dir ++ dirname (relpath p h.watch_dir)
    ++ [nfc (pySplitExt (basename (relpath p h.watch_dir))).1 ++ ".txt"]

/-- The clock reading used in the witness scenarios. -/
def tW : DateTime := ⟨2024, 1, 2, 3, 4⟩

/-- Concrete handler for the witness scenarios: watch root w, archive root a,
empty marker set. -/
def hW : Handler := ⟨["w"], ["a"], []⟩

/-- Concrete handler whose marker set already records the sidecar a/clip.txt. -/
def hWm : Handler := ⟨["w"], ["a"], [["a", "clip.txt"]]⟩

/-- Concrete filesystem for the witness scenarios: both roots exist and one
sidecar a/video.txt with content sc is present. -/
def fsW : FS :=
  { files := fun q => if q = ["a", "video.txt"] then some "sc" else none,
    dirs := fun q => q == [] || q == ["w"] || q == ["a"] }

/-- Concrete filesystem with a mirrored subdirectory a/sub holding one nested
sidecar, for the directory-deletion witness. -/
def fsW7 : FS :=
  { files := fun q => if q = ["a", "sub", "x.txt"] then some "m" else none,
    dirs := fun q => q == [] || q == ["w"] || q == ["a"] || q == ["a", "sub"] }


/-- A component list is a Boolean prefix of itself followed by anything. -/
theorem isPrefixOf_self_append (l r : List String) : l.isPrefixOf (l ++ r) = true := by
  induction l with
  | nil => simp [List.isPrefixOf]
  | cons a as ih => simp [List.isPrefixOf, ih]

/-- The common front of a list with an extension of itself is the whole list. -/
theorem commonLen_append (w r : List String) : commonLen (w ++ r) w = w.length := by
  induction w with
  | nil => cases r <;> rfl
  | cons a as ih => simp [commonLen, ih]

/-- The relative path of an entry below the start directory is the remainder of
its component list. -/
theorem relpath_append (w r : List String) : relpath (w ++ r) w = r := by
  simp [relpath, commonLen_append, List.drop_left]

/-- The digit character function always yields a decimal digit character. -/
theorem digitChar_isDigit (n : Nat) : (digitChar n).isDigit = true := by
  have h : n % 10 < 10 := Nat.mod_lt n (by decide)
  unfold digitChar
  generalize hk : n % 10 = k at h ⊢
  interval_cases k <;> decide



/-- C5 counterexample: at display name clip.webm and one concrete clock
reading, the text the code writes differs from the record shape displayed in
the spec, because the line between the Link field and the Last updated field
consists of 24 space characters instead of being empty. -/
theorem C5_counterexample_record_differs_from_spec_shape :
    sidecarText "clip.webm" ⟨2024, 1, 2, 3, 4⟩ ≠
      specSidecarText "clip.webm" (strftimeYmdHM ⟨2024, 1, 2, 3, 4⟩) := by
  decide

/-- C5 (amended): every sidecar record carries the four labelled fields File
name, Link, Last updated and Other in that order, the Link and Other fields
left empty and the timestamp in YYYY-MM-DD HH:MM form at minute precision; the
separator between the Link field and the Last updated field is a line of 24
space characters, while the other field separators are empty lines. -/
theorem C5_sidecar_record_shape (b : String) (t : DateTime) :
    sidecarText b t =
      "File name: " ++ b ++ "\n\nLink: \n" ++ spaces24 ++ "\nLast updated: "
        ++ strftimeYmdHM t ++ "\n\nOther:\n"
    ∧ spaces24.length = 24
    ∧ spaces24.data.all (fun c => c == ' ') = true
    ∧ isTimestampYmdHM (strftimeYmdHM t) = true := by
  refine ⟨rfl, by decide, by decide, ?_⟩
  have hd : (strftimeYmdHM t).data =
      [digitChar (t.year / 1000), digitChar (t.year / 100), digitChar (t.year / 10),
       digitChar t.year, '-', digitChar (t.month / 10), digitChar t.month, '-',
       digitChar (t.day / 10), digitChar t.day, ' ', digitChar (t.hour / 10),
       digitChar t.hour, ':', digitChar (t.minute / 10), digitChar t.minute] := rfl
  simp only [isTimestampYmdHM, hd, digitChar_isDigit, Bool.and_self]





/-- C2: the reverse-deletion probe never reaches the Source Root tree. For a
sidecar deleted under the archive root, the probed candidate paths are built
from the watch root joined with a relative path that climbs back out of it, so
they resolve inside the archive tree: with w/video.mp4 present the handler
deletes nothing and prints nothing, and with a stray a/video.mp4 present it
deletes that archive-tree file, never the source file. -/
theorem C2_reverse_deletion_probe_misses_source_root :
    (on_deleted id hRev fsRev evRev).fs.files ["w", "video.mp4"] = some "vid"
    ∧ (on_deleted id hRev fsRev evRev).console = []
    ∧ (on_deleted id hRev fsRevStray evRev).fs.files ["a", "video.mp4"] = none
    ∧ (on_deleted id hRev fsRevStray evRev).fs.files ["w", "video.mp4"] = some "vid"
    ∧ (on_deleted id hRev fsRevStray evRev).console =
        ["File deleted: video.txt", "Watch file also deleted: video.mp4", border] := by
  decide

/-- Membership in a marker list survives adding an element at the front. -/
theorem contains_cons_of_contains (a p : List String) (l : List (List String))
    (hp : l.contains p = true) : (a :: l).contains p = true := by
  have hmem : p ∈ l := by simpa using hp
  simp [hmem]

/-- The move handler never changes the handler state. -/
theorem on_moved_handler_eq (nfc : String → String) (h : Handler) (fs : FS)
    (event : MovedEvent) : (on_moved nfc h fs event).handler = h := by
  simp only [on_moved]
  split
  · rfl
  · split <;> rfl

/-- The deletion handler never changes the handler state. -/
theorem on_deleted_handler_eq (nfc : String → String) (h : Handler) (fs : FS)
    (event : Event) : (on_deleted nfc h fs event).handler = h := by
  simp only [on_deleted]
  split
  · split <;> rfl
  · split <;> rfl

/-- C1: a non-directory creation below Source Root of a file whose normalized
name does not end in .txt makes on_created write the sidecar at the mapped
Archive Root path (same relative directory, normalized extension-free base
name plus .txt), and the written text records the normalized base name in its
File name field. -/
theorem C1_create_writes_mapped_sidecar (nfc : String → String) (now : DateTime)
    (h : Handler) (fs : FS) (event : Event) (rel : List String)
    (hdir : event.is_directory = false)
    (hsrc : event.src_path = h.watch_dir ++ rel)
    (hsep : h.archive_dir.isPrefixOf event.src_path = false)
    (htxt : pyEndsWith (nfc (basename event.src_path)) ".txt" = false) :
    (on_created nfc now h fs event).fs.files
        (normP (h.archive_dir ++ dirname rel
          ++ [nfc (pySplitExt (nfc (basename event.src_path))).1 ++ ".txt"])) =
      some ("File name: " ++ nfc (basename event.src_path) ++ "\n\nLink: \n"
        ++ spaces24 ++ "\nLast updated: " ++ strftimeYmdHM now ++ "\n\nOther:\n") := by
  have hne : event.src_path ≠ h.archive_dir
      ++ dirname (relpath event.src_path h.watch_dir)
      ++ [nfc (pySplitExt (nfc (basename event.src_path))).1 ++ ".txt"] := by
    intro hEq
    have hp : h.archive_dir.isPrefixOf event.src_path = true := by
      conv_lhs => rw [hEq, List.append_assoc]
      exact isPrefixOf_self_append _ _
    rw [hsep] at hp
    exact Bool.false_ne_true hp
  simp only [on_created]
  rw [if_neg (by simp [hdir]), if_neg hne, if_neg (by simp [htxt])]
  rw [hsrc, relpath_append]
  simp [FS.write, sidecarText]

/-- C3: a non-directory creation of a file with sidecar extension whose path is
neither in the marker set nor equal to the computed sidecar path makes
on_created print the ignored notice, leave every file untouched and leave the
handler state unchanged. -/
theorem C3_independent_txt_creation_only_ignored (nfc : String → String)
    (now : DateTime) (h : Handler) (fs : FS) (event : Event)
    (hdir : event.is_directory = false)
    (htxt : pyEndsWith (nfc (basename event.src_path)) ".txt" = true)
    (hne : event.src_path ≠ h.archive_dir
      ++ dirname (relpath event.src_path h.watch_dir)
      ++ [nfc (pySplitExt (nfc (basename event.src_path))).1 ++ ".txt"])
    (hmem : h.system_created_txt_files.contains event.src_path = false) :
    (on_created nfc now h fs event).console =
      ["Ignored .txt file: " ++ nfc (basename event.src_path), border]
    ∧ (∀ q, (on_created nfc now h fs event).fs.files q = fs.files q)
    ∧ (on_created nfc now h fs event).handler = h := by
  simp only [on_created]
  rw [if_neg (by simp [hdir]), if_neg hne, if_pos htxt,
    if_neg (by rw [hmem]; exact Bool.false_ne_true)]
  exact ⟨rfl, fun q => by simp [FS.makedirs], rfl⟩

/-- C8: replaying a creation notification for a path already recorded in the
marker set changes no file content, prints nothing and leaves the handler
state unchanged, so re-processing the identical notification is idempotent on
sidecar content and emits neither an added nor an ignored notice. -/
theorem C8_marked_creation_replay_is_silent_noop (nfc : String → String)
    (now : DateTime) (h : Handler) (fs : FS) (event : Event)
    (hdir : event.is_directory = false)
    (htxt : pyEndsWith (nfc (basename event.src_path)) ".txt" = true)
    (hmem : h.system_created_txt_files.contains event.src_path = true) :
    (∀ q, (on_created nfc now h fs event).fs.files q = fs.files q)
    ∧ (on_created nfc now h fs event).console = []
    ∧ (on_created nfc now h fs event).handler = h := by
  have hres : on_created nfc now h fs event =
      ⟨h, fs.makedirs (dirname (h.archive_dir
        ++ dirname (relpath event.src_path h.watch_dir)
        ++ [nfc (pySplitExt (nfc (basename event.src_path))).1 ++ ".txt"])), []⟩ := by
    simp only [on_created]
    rw [if_neg (by simp [hdir])]
    split <;> rfl
  rw [hres]
  exact ⟨fun q => by simp [FS.makedirs], rfl, rfl⟩

/-- C9: the marker set grows monotonically. Membership survives on_created,
which either leaves the set unchanged or adds exactly the just-written sidecar
path at the front, and the move and deletion handlers return the handler state
untouched, so no handler ever removes an entry. -/
theorem C9_marker_set_monotone (nfc : String → String) (now : DateTime)
    (h : Handler) (fs : FS) (event : Event) (mevent : MovedEvent)
    (devent : Event) :
    (∀ p, h.system_created_txt_files.contains p = true →
      (on_created nfc now h fs event).handler.system_created_txt_files.contains p = true)
    ∧ ((on_created nfc now h fs event).handler.system_created_txt_files
          = h.system_created_txt_files
        ∨ (on_created nfc now h fs event).handler.system_created_txt_files
          = (h.archive_dir ++ dirname (relpath event.src_path h.watch_dir)
              ++ [nfc (pySplitExt (nfc (basename event.src_path))).1 ++ ".txt"])
            :: h.system_created_txt_files)
    ∧ (on_moved nfc h fs mevent).handler = h
    ∧ (on_deleted nfc h fs devent).handler = h := by
  refine ⟨?_, ?_, on_moved_handler_eq nfc h fs mevent, on_deleted_handler_eq nfc h fs devent⟩
  · intro p hp
    simp only [on_created]
    split
    · exact hp
    · split
      · exact hp
      · split
        · split
          · exact hp
          · exact hp
        · exact contains_cons_of_contains _ p h.system_created_txt_files hp
  · simp only [on_created]
    split
    · exact Or.inl rfl
    · split
      · exact Or.inl rfl
      · split
        · split
          · exact Or.inl rfl
          · exact Or.inl rfl
        · exact Or.inr rfl

/-- C10: for every non-directory creation notification, on_created runs
makedirs on the parent directory of the computed sidecar path before any of
the sidecar-extension and marker-set checks, so the directory chain under the
archive root exists afterwards in every branch, including the ones that write
no file. -/
theorem C10_parent_dirs_created_in_every_branch (nfc : String → String)
    (now : DateTime) (h : Handler) (fs : FS) (event : Event)
    (hdir : event.is_directory = false) :
    ∀ q, q.isPrefixOf (normP (dirname (h.archive_dir
        ++ dirname (relpath event.src_path h.watch_dir)
        ++ [nfc (pySplitExt (nfc (basename event.src_path))).1 ++ ".txt"]))) = true →
      (on_created nfc now h fs event).fs.dirs q = true := by
  intro q hq
  simp only [on_created]
  rw [if_neg (by simp [hdir])]
  split
  all_goals try split
  all_goals try split
  all_goals simp only [FS.write, FS.makedirs]
  all_goals rw [hq]
  all_goals rfl


/-- C4: for every non-directory move notification, when a sidecar file exists
at the old computed archive path, on_moved relocates it to the new computed
path with its content preserved byte for byte, after creating the parent
directory chain of the new path; every other file is untouched. When nothing
exists at the old computed path, the filesystem is returned unchanged and
nothing is printed. -/
theorem C4_move_relocates_sidecar_or_noop (nfc : String → String) (h : Handler)
    (fs : FS) (event : MovedEvent)
    (hdir : event.is_directory = false) :
    (∀ c, fs.files (normP (moved_txt_path nfc h event.src_path)) = some c →
      (on_moved nfc h fs event).fs.files
          (normP (moved_txt_path nfc h event.dest_path)) = some c
      ∧ (normP (moved_txt_path nfc h event.src_path)
            ≠ normP (moved_txt_path nfc h event.dest_path) →
          (on_moved nfc h fs event).fs.files
            (normP (moved_txt_path nfc h event.src_path)) = none)
      ∧ (∀ q, q ≠ normP (moved_txt_path nfc h event.src_path) →
          q ≠ normP (moved_txt_path nfc h event.dest_path) →
          (on_moved nfc h fs event).fs.files q = fs.files q)
      ∧ (∀ q, q.isPrefixOf
            (normP (dirname (moved_txt_path nfc h event.dest_path))) = true →
          (on_moved nfc h fs event).fs.dirs q = true))
    ∧ (fs.pexists (moved_txt_path nfc h event.src_path) = false →
        (on_moved nfc h fs event).fs = fs
        ∧ (on_moved nfc h fs event).console = []) := by
  constructor
  · intro c hc
    have hc' := hc
    simp only [moved_txt_path] at hc'
    have hpe' : fs.pexists (h.archive_dir
        ++ dirname (relpath event.src_path h.watch_dir)
        ++ [nfc (pySplitExt (basename (relpath event.src_path h.watch_dir))).1 ++ ".txt"])
        = true := by
      simp only [FS.pexists]
      rw [hc']
      rfl
    have hres : on_moved nfc h fs event =
        ⟨h, (fs.makedirs (dirname (moved_txt_path nfc h event.dest_path))).move
          (moved_txt_path nfc h event.src_path)
          (moved_txt_path nfc h event.dest_path), []⟩ := by
      simp only [on_moved, moved_txt_path]
      rw [if_neg (by simp [hdir]), if_pos hpe']
    rw [hres]
    have hm : (fs.makedirs (dirname (moved_txt_path nfc h event.dest_path))).files
        (normP (moved_txt_path nfc h event.src_path)) = some c := hc
    refine ⟨?_, ?_, ?_, ?_⟩
    · simp only [FS.move, hm]
      simp
    · intro hne
      simp only [FS.move, hm]
      simp [hne]
    · intro q hqo hqn
      simp only [FS.move, hm]
      simp [hqo, hqn, FS.makedirs]
    · intro q hq
      simp only [FS.move, hm]
      simp only [FS.makedirs]
      rw [hq]
      rfl
  · intro hpe
    have hpe' := hpe
    simp only [moved_txt_path] at hpe'
    have hres : on_moved nfc h fs event = ⟨h, fs, []⟩ := by
      simp only [on_moved]
      rw [if_neg (by simp [hdir]), if_neg (by rw [hpe']; exact Bool.false_ne_true)]
    rw [hres]
    exact ⟨rfl, rfl⟩

/-- C6: deleting a non-directory file below Source Root whose normalized name
does not end in .txt, when its mapped sidecar file exists, removes exactly
that sidecar, prints the deletion notice, and changes no other file and no
directory. -/
theorem C6_source_delete_removes_only_its_sidecar (nfc : String → String)
    (h : Handler) (fs : FS) (event : Event) (rel : List String) (c : String)
    (hdir : event.is_directory = false)
    (hsrc : event.src_path = h.watch_dir ++ rel)
    (htxt : pyEndsWith (nfc (basename rel)) ".txt" = false)
    (hexist : fs.files (normP (h.archive_dir ++ dirname rel
        ++ [nfc (pySplitExt (nfc (basename rel))).1 ++ ".txt"])) = some c) :
    (on_deleted nfc h fs event).fs.files (normP (h.archive_dir ++ dirname rel
        ++ [nfc (pySplitExt (nfc (basename rel))).1 ++ ".txt"])) = none
    ∧ (∀ q, q ≠ normP (h.archive_dir ++ dirname rel
        ++ [nfc (pySplitExt (nfc (basename rel))).1 ++ ".txt"]) →
        (on_deleted nfc h fs event).fs.files q = fs.files q)
    ∧ (∀ q, (on_deleted nfc h fs event).fs.dirs q = fs.dirs q)
    ∧ (on_deleted nfc h fs event).console =
        ["File deleted: " ++ nfc (basename rel),
         "Corresponding source file also deleted.", border] := by
  have hpe : fs.pexists (h.archive_dir ++ dirname rel
      ++ [nfc (pySplitExt (nfc (basename rel))).1 ++ ".txt"]) = true := by
    simp only [FS.pexists]
    rw [hexist]
    rfl
  have hres : on_deleted nfc h fs event =
      ⟨h, fs.remove (h.archive_dir ++ dirname rel
        ++ [nfc (pySplitExt (nfc (basename rel))).1 ++ ".txt"]),
        ["File deleted: " ++ nfc (basename rel),
         "Corresponding source file also deleted.", border]⟩ := by
    simp only [on_deleted]
    rw [hsrc, relpath_append]
    rw [if_neg (by simp [hdir]), if_pos hpe, if_neg (by simp [htxt])]
  rw [hres]
  refine ⟨?_, ?_, ?_, rfl⟩
  · simp [FS.remove]
  · intro q hq
    simp only [FS.remove]
    rw [if_neg hq]
  · intro q
    simp [FS.remove]

/-- C7: deleting a directory below Source Root removes the whole corresponding
archive subtree in one operation when that subtree path exists, together with
every file below it, and prints the directory notice; when the subtree path
does not exist, nothing changes and nothing is printed. -/
theorem C7_dir_delete_removes_archive_subtree (nfc : String → String)
    (h : Handler) (fs : FS) (event : Event) (rel : List String)
    (hdir : event.is_directory = true)
    (hsrc : event.src_path = h.watch_dir ++ rel) :
    (fs.pexists (h.archive_dir ++ rel) = true →
      (∀ q, (normP (h.archive_dir ++ rel)).isPrefixOf q = true →
          (on_deleted nfc h fs event).fs.files q = none)
      ∧ (∀ q, (normP (h.archive_dir ++ rel)).isPrefixOf q = false →
          (on_deleted nfc h fs event).fs.files q = fs.files q)
      ∧ (∀ q, (normP (h.archive_dir ++ rel)).isPrefixOf q = true →
          (on_deleted nfc h fs event).fs.dirs q = false)
      ∧ (on_deleted nfc h fs event).console =
          ["Directory deleted: " ++ String.intercalate "/" rel,
           "Corresponding source files also deleted.", border])
    ∧ (fs.pexists (h.archive_dir ++ rel) = false →
        (on_deleted nfc h fs event).fs = fs
        ∧ (on_deleted nfc h fs event).console = []) := by
  constructor
  · intro hpe
    have hres : on_deleted nfc h fs event =
        ⟨h, fs.rmtree (h.archive_dir ++ rel),
          ["Directory deleted: " ++ String.intercalate "/" rel,
           "Corresponding source files also deleted.", border]⟩ := by
      simp only [on_deleted]
      rw [hsrc, relpath_append]
      rw [if_pos hdir, if_pos hpe]
    rw [hres]
    refine ⟨?_, ?_, ?_, rfl⟩
    · intro q hq
      simp only [FS.rmtree]
      rw [hq]
      rfl
    · intro q hq
      simp only [FS.rmtree]
      rw [hq]
      rfl
    · intro q hq
      simp only [FS.rmtree]
      rw [hq]
      rfl
  · intro hpe
    have hres : on_deleted nfc h fs event = ⟨h, fs, []⟩ := by
      simp only [on_deleted]
      rw [hsrc, relpath_append]
      rw [if_pos hdir, if_neg (by rw [hpe]; exact Bool.false_ne_true)]
    rw [hres]
    exact ⟨rfl, rfl⟩

/-- C1 witness: the creation theorem applied to the concrete event for
w/video.mp4 with the identity normalizer. -/
theorem C1_create_writes_mapped_sidecar_witness :
    ((⟨["w", "video.mp4"], false⟩ : Event).is_directory = false)
    ∧ ((⟨["w", "video.mp4"], false⟩ : Event).src_path = hW.watch_dir ++ ["video.mp4"])
    ∧ (hW.archive_dir.isPrefixOf ["w", "video.mp4"] = false)
    ∧ (pyEndsWith (id (basename (["w", "video.mp4"] : List String))) ".txt" = false)
    ∧ (on_created id tW hW fsW ⟨["w", "video.mp4"], false⟩).fs.files ["a", "video.txt"]
        = some (sidecarText "video.mp4" tW) :=
  ⟨rfl, rfl, by decide, by decide,
    C1_create_writes_mapped_sidecar id tW hW fsW ⟨["w", "video.mp4"], false⟩
      ["video.mp4"] rfl rfl (by decide) (by decide)⟩

/-- C3 witness: the ignored-creation theorem applied to the concrete event for
a/notes.txt created directly under the archive root. -/
theorem C3_independent_txt_creation_only_ignored_witness :
    ((⟨["a", "notes.txt"], false⟩ : Event).is_directory = false)
    ∧ (pyEndsWith (id (basename (["a", "notes.txt"] : List String))) ".txt" = true)
    ∧ ((["a", "notes.txt"] : List String) ≠ hW.archive_dir
        ++ dirname (relpath ["a", "notes.txt"] hW.watch_dir)
        ++ [id (pySplitExt (id (basename (["a", "notes.txt"] : List String)))).1 ++ ".txt"])
    ∧ (hW.system_created_txt_files.contains ["a", "notes.txt"] = false)
    ∧ (on_created id tW hW fsW ⟨["a", "notes.txt"], false⟩).console
        = ["Ignored .txt file: notes.txt", border]
    ∧ (on_created id tW hW fsW ⟨["a", "notes.txt"], false⟩).fs.files ["a", "video.txt"]
        = fsW.files ["a", "video.txt"] :=
  ⟨rfl, by decide, by decide, by decide,
    (C3_independent_txt_creation_only_ignored id tW hW fsW ⟨["a", "notes.txt"], false⟩
      rfl (by decide) (by decide) (by decide)).1,
    (C3_independent_txt_creation_only_ignored id tW hW fsW ⟨["a", "notes.txt"], false⟩
      rfl (by decide) (by decide) (by decide)).2.1 ["a", "video.txt"]⟩

/-- C4 witness: the move theorem applied to the concrete move of w/video.mp4
to w/sub/clip.mov, whose old sidecar a/video.txt exists with content sc. -/
theorem C4_move_relocates_sidecar_or_noop_witness :
    ((⟨["w", "video.mp4"], ["w", "sub", "clip.mov"], false⟩ : MovedEvent).is_directory = false)
    ∧ (fsW.files (normP (moved_txt_path id hW ["w", "video.mp4"])) = some "sc")
    ∧ (on_moved id hW fsW ⟨["w", "video.mp4"], ["w", "sub", "clip.mov"], false⟩).fs.files
        ["a", "sub", "clip.txt"] = some "sc"
    ∧ (on_moved id hW fsW ⟨["w", "video.mp4"], ["w", "sub", "clip.mov"], false⟩).fs.files
        ["a", "video.txt"] = none
    ∧ (on_moved id hW fsW ⟨["w", "video.mp4"], ["w", "sub", "clip.mov"], false⟩).fs.dirs
        ["a", "sub"] = true :=
  ⟨rfl, by decide,
    ((C4_move_relocates_sidecar_or_noop id hW fsW
        ⟨["w", "video.mp4"], ["w", "sub", "clip.mov"], false⟩ rfl).1 "sc" (by decide)).1,
    ((C4_move_relocates_sidecar_or_noop id hW fsW
        ⟨["w", "video.mp4"], ["w", "sub", "clip.mov"], false⟩ rfl).1 "sc" (by decide)).2.1
      (by decide),
    ((C4_move_relocates_sidecar_or_noop id hW fsW
        ⟨["w", "video.mp4"], ["w", "sub", "clip.mov"], false⟩ rfl).1 "sc" (by decide)).2.2.2
      ["a", "sub"] (by decide)⟩

/-- C6 witness: the source-deletion theorem applied to the concrete event for
w/video.mp4, whose sidecar a/video.txt exists with content sc. -/
theorem C6_source_delete_removes_only_its_sidecar_witness :
    ((⟨["w", "video.mp4"], false⟩ : Event).is_directory = false)
    ∧ ((⟨["w", "video.mp4"], false⟩ : Event).src_path = hW.watch_dir ++ ["video.mp4"])
    ∧ (pyEndsWith (id (basename (["video.mp4"] : List String))) ".txt" = false)
    ∧ (fsW.files (normP (hW.archive_dir ++ dirname ["video.mp4"]
        ++ [id (pySplitExt (id (basename (["video.mp4"] : List String)))).1 ++ ".txt"]))
        = some "sc")
    ∧ (on_deleted id hW fsW ⟨["w", "video.mp4"], false⟩).fs.files ["a", "video.txt"] = none
    ∧ (on_deleted id hW fsW ⟨["w", "video.mp4"], false⟩).console
        = ["File deleted: video.mp4", "Corresponding source file also deleted.", border] :=
  ⟨rfl, rfl, by decide, by decide,
    (C6_source_delete_removes_only_its_sidecar id hW fsW ⟨["w", "video.mp4"], false⟩
      ["video.mp4"] "sc" rfl rfl (by decide) (by decide)).1,
    (C6_source_delete_removes_only_its_sidecar id hW fsW ⟨["w", "video.mp4"], false⟩
      ["video.mp4"] "sc" rfl rfl (by decide) (by decide)).2.2.2⟩

/-- C7 witness: the directory-deletion theorem applied to the concrete event
for the directory w/sub, whose archive subtree a/sub holds a nested sidecar. -/
theorem C7_dir_delete_removes_archive_subtree_witness :
    ((⟨["w", "sub"], true⟩ : Event).is_directory = true)
    ∧ ((⟨["w", "sub"], true⟩ : Event).src_path = hW.watch_dir ++ ["sub"])
    ∧ (fsW7.pexists (hW.archive_dir ++ ["sub"]) = true)
    ∧ (on_deleted id hW fsW7 ⟨["w", "sub"], true⟩).fs.files ["a", "sub", "x.txt"] = none
    ∧ (on_deleted id hW fsW7 ⟨["w", "sub"], true⟩).console
        = ["Directory deleted: sub", "Corresponding source files also deleted.", border] :=
  ⟨rfl, rfl, by decide,
    ((C7_dir_delete_removes_archive_subtree id hW fsW7 ⟨["w", "sub"], true⟩ ["sub"]
        rfl rfl).1 (by decide)).1 ["a", "sub", "x.txt"] (by decide),
    ((C7_dir_delete_removes_archive_subtree id hW fsW7 ⟨["w", "sub"], true⟩ ["sub"]
        rfl rfl).1 (by decide)).2.2.2⟩

/-- C8 witness: the replay theorem applied to the concrete creation event for
a/clip.txt, a path already present in the marker set of the handler. -/
theorem C8_marked_creation_replay_is_silent_noop_witness :
    ((⟨["a", "clip.txt"], false⟩ : Event).is_directory = false)
    ∧ (pyEndsWith (id (basename (["a", "clip.txt"] : List String))) ".txt" = true)
    ∧ (hWm.system_created_txt_files.contains ["a", "clip.txt"] = true)
    ∧ (on_created id tW hWm fsW ⟨["a", "clip.txt"], false⟩).fs.files ["a", "video.txt"]
        = fsW.files ["a", "video.txt"]
    ∧ (on_created id tW hWm fsW ⟨["a", "clip.txt"], false⟩).console = []
    ∧ (on_created id tW hWm fsW ⟨["a", "clip.txt"], false⟩).handler = hWm :=
  ⟨rfl, by decide, by decide,
    (C8_marked_creation_replay_is_silent_noop id tW hWm fsW ⟨["a", "clip.txt"], false⟩
      rfl (by decide) (by decide)).1 ["a", "video.txt"],
    (C8_marked_creation_replay_is_silent_noop id tW hWm fsW ⟨["a", "clip.txt"], false⟩
      rfl (by decide) (by decide)).2.1,
    (C8_marked_creation_replay_is_silent_noop id tW hWm fsW ⟨["a", "clip.txt"], false⟩
      rfl (by decide) (by decide)).2.2⟩

/-- C10 witness: the directory-creation theorem applied to the concrete event
for w/sub/notes.txt, a creation that ends up ignored yet still produces the
archive-side directory a/sub. -/
theorem C10_parent_dirs_created_in_every_branch_witness :
    ((⟨["w", "sub", "notes.txt"], false⟩ : Event).is_directory = false)
    ∧ ((["a", "sub"] : List String).isPrefixOf (normP (dirname (hW.archive_dir
        ++ dirname (relpath ["w", "sub", "notes.txt"] hW.watch_dir)
        ++ [id (pySplitExt (id (basename (["w", "sub", "notes.txt"] : List String)))).1
            ++ ".txt"]))) = true)
    ∧ (on_created id tW hW fsW ⟨["w", "sub", "notes.txt"], false⟩).fs.dirs ["a", "sub"]
        = true :=
  ⟨rfl, by decide,
    C10_parent_dirs_created_in_every_branch id tW hW fsW ⟨["w", "sub", "notes.txt"], false⟩
      rfl ["a", "sub"] (by decide)⟩
